import Mathlib

/-!
# Verification of the gofile.io API client

A shallow embedding of the `gofile_api` Rust crate (files `src/lib.rs` and
`src/payload.rs`) together with proofs about its behaviour.

JSON documents are modelled by the inductive `Json`; the derived serde
deserializers are embedded as functions `Json → Except String α`, and the
request-building halves of the HTTP methods are embedded as pure functions
producing `Request` values.  External crates (`uuid`, `hex`, `mime`, `url`,
`chrono`) are modelled shallowly: a value of such a type is a string (or byte
list) together with a well-formedness predicate, and parsing validates that
predicate.
-/

namespace Gofile

/-- Model of a JSON document (`serde_json::Value`).  Numbers are modelled as
integers: every numeric field of the payload types of the crate is an integer
(`u32`, `u64`, unix seconds). -/
inductive Json : Type where
  | null : Json
  | bool : Bool → Json
  | num : Int → Json
  | str : String → Json
  | arr : List Json → Json
  | obj : List (String × Json) → Json
deriving Repr

/-- Field lookup in a JSON object, first occurrence wins (as in the map access of `serde_json`
 for the keys the derived deserializers read). -/
def Json.lookup (o : List (String × Json)) (k : String) : Option Json :=
  match o with
  | [] => none
  | (k', v) :: rest => if k' = k then some v else Json.lookup rest k

/-- A byte is a natural number below 256. -/
def isByte (b : Nat) : Bool := b < 256

/-- Encode a nibble (a value below 16) as a lowercase hex character, through
the standard digit table. -/
def nibbleChar (n : Nat) : Char := Nat.digitChar n

/-- Decode a lowercase hex character to its value, by code point arithmetic.
Model of the digit table of the `hex` crate, restricted to the lowercase
alphabet the crate emits. -/
def nibbleVal (c : Char) : Option Nat :=
  if 48 ≤ c.toNat && c.toNat ≤ 57 then some (c.toNat - 48)
  else if 97 ≤ c.toNat && c.toNat ≤ 102 then some (c.toNat - 87)
  else none

/-- Encode a byte list as a lowercase hex string (the encoder of the `hex` crate). -/
def hexEncode (bs : List Nat) : List Char :=
  bs.flatMap (fun b => [nibbleChar (b / 16), nibbleChar (b % 16)])

/-- Decode a hex string into bytes (the decoder of the `hex` crate). -/
def hexDecode : List Char → Option (List Nat)
  | [] => some []
  | [_] => none
  | c₁ :: c₂ :: rest => do
      let h ← nibbleVal c₁
      let l ← nibbleVal c₂
      let bs ← hexDecode rest
      pure ((h * 16 + l) :: bs)

/-- An md5 digest: exactly 16 bytes (`[u8; 16]` in the crate). -/
structure Md5 : Type where
  bytes : List Nat
  len16 : bytes.length = 16
  inRange : bytes.all isByte = true
deriving DecidableEq

/-- Characters allowed in a canonical textual uuid. -/
def uuidChar (c : Char) : Bool :=
  c = '-' || (nibbleVal c).isSome

/-- Well-formedness of a canonical hyphenated uuid string
(`8-4-4-4-12` lowercase hex groups). -/
def uuidValid (s : String) : Bool :=
  s.length = 36 &&
  (s.toList.enum.all fun (i, c) =>
    if i = 8 || i = 13 || i = 18 || i = 23 then c = '-'
    else uuidChar c && c ≠ '-')

/-- Model of `uuid::Uuid`: the canonical hyphenated lowercase rendering, which
is both what `Uuid::to_string` and serialization emit and what the
payloads of the crate carry. -/
structure Uuid : Type where
  repr : String
  valid : uuidValid repr = true
deriving DecidableEq

/-- Model of `Uuid::from_str` restricted to the canonical form the API uses:
validate and wrap. -/
def parseUuid (s : String) : Option Uuid :=
  if h : uuidValid s = true then some ⟨s, h⟩ else none

/-- Well-formedness of a MIME type string: at least one `/` with nonempty
type and subtype parts.  Shallow model of the grammar of the `mime` crate. -/
def mimeValid (s : String) : Bool :=
  match s.toList.splitOn '/' with
  | a :: b :: _ => !a.isEmpty && !b.isEmpty
  | _ => false

/-- Model of `mime::Mime`: the source string, validated. -/
structure Mime : Type where
  repr : String
  valid : mimeValid repr = true
deriving DecidableEq

/-- Model of `Mime::from_str` (used by `mime_from_str` in `payload.rs`):
validate and wrap. -/
def parseMime (s : String) : Option Mime :=
  if h : mimeValid s = true then some ⟨s, h⟩ else none

/-- Well-formedness of an absolute http(s) URL string, shallow model of what
the `url` crate accepts for the links the API returns. -/
def urlStrValid (s : String) : Bool :=
  (List.isPrefixOf "http://".toList s.toList && decide (7 < s.length)) ||
  (List.isPrefixOf "https://".toList s.toList && decide (8 < s.length))

/-- Model of a `url::Url` as stored inside payload values (`link`,
`download_page`): its serialized form, validated. -/
structure UrlStr : Type where
  repr : String
  valid : urlStrValid repr = true
deriving DecidableEq

/-- Model of `Url::parse` for payload fields: validate and wrap. -/
def parseUrlStr (s : String) : Option UrlStr :=
  if h : urlStrValid s = true then some ⟨s, h⟩ else none

/-- Model of a `url::Url` as consumed by `Api::code_from_content_url`: the
only observations that function makes are the rendered form (for error
values) and `Url::path_segments()`, which is `None` for cannot-be-a-base
URLs and otherwise the `/`-separated segments of the path. -/
structure Url : Type where
  repr : String
  pathSegments : Option (List String)
deriving DecidableEq, Repr

/-- Model of `reqwest::StatusCode`: the numeric HTTP status code. -/
abbrev StatusCode := Nat

/-- The `Error` enum of `src/lib.rs` (file paths rendered as strings). -/
inductive Error : Type where
  | HttpRequestError : Option Url → String → Error
  | HttpStatusCodeError : Url → StatusCode → Error
  | ApiStatusError : Url → String → Error
  | EmptyServerList : Error
  | InvalidFilePath : String → String → Error
  | CouldntOpenFile : String → String → Error
  | InvalidContentUrl : Url → String → Error
deriving DecidableEq, Repr

/-- The `Server` record of `payload.rs`. -/
structure Server : Type where
  name : String
  zone : String
deriving DecidableEq, Repr

/-- The `Servers` record of `payload.rs`. -/
structure Servers : Type where
  servers : List Server
deriving DecidableEq, Repr

/-- The `ServerApi` record of `src/lib.rs`. -/
structure ServerApi : Type where
  base_url : String
deriving DecidableEq, Repr

/-- The server-selection logic of `Api::get_server` (`src/lib.rs` lines
54–64), applied to the decoded `Servers` payload: take the first listed
server, or fail with `EmptyServerList`. -/
def getServer (payload : Servers) : Except Error ServerApi :=
  match payload.servers with
  | [] => .error .EmptyServerList
  | server :: _ => .ok ⟨"https://" ++ server.name ++ ".gofile.io"⟩

/-- Embeds `Api::code_from_content_url` (`src/lib.rs` lines 66–89). -/
def codeFromContentUrl (url : Url) : Except Error String :=
  match url.pathSegments with
  | none =>
      .error (.InvalidContentUrl url
        "The content url must have path segments like \x27/d/XXXX\x27.")
  | some segs =>
      match segs with
      | first :: rest =>
          if first = "d" then
            match rest with
            | code :: _ => .ok code
            | [] =>
                .error (.InvalidContentUrl url
                  "The content url must have two path segments like \x27/d/XXXX\x27.")
          else
            .error (.InvalidContentUrl url
              "The first path segment of content url must be \x27d\x27.")
      | [] =>
          .error (.InvalidContentUrl url
            "The first path segment of content url must be \x27d\x27.")

/-- The `ApiResult` envelope of `payload.rs` (`{ status, data }`). -/
structure ApiResult (α : Type) : Type where
  status : String
  data : α
deriving DecidableEq, Repr

/-- The empty `NoInfo` record of `payload.rs`. -/
structure NoInfo : Type where
deriving DecidableEq, Repr

/-- The `UploadedFile` record of `payload.rs`. -/
structure UploadedFile : Type where
  guest_token : Option String
  download_page : UrlStr
  code : String
  parent_folder : Uuid
  file_id : Uuid
  file_name : String
  md5 : Md5
deriving DecidableEq

/-- The `AccountDetails` record of `payload.rs`. -/
structure AccountDetails : Type where
  id : Uuid
  token : String
  email : String
  tier : String
  root_folder : Uuid
  files_count : Nat
  total_size : Nat
deriving DecidableEq

mutual
/-- The `ContentKind` enum of `payload.rs` (lines 141–172): the type-specific
half of a content record, discriminated by the JSON `type` tag.  The
`HashMap<Uuid, Content>` of the `contents` field is modelled as an
association list in JSON order. -/
inductive ContentKind : Type where
  | Folder (code : String) (isPublic : Bool) (childrenIds : List Uuid)
      (totalDownloadCount : Option Nat) (totalSize : Option Nat)
      (contents : Option (List (Uuid × Content))) : ContentKind
  | File (size : Nat) (downloadCount : Nat) (md5 : Md5) (mimetype : Mime)
      (serverChoosen : String) (link : UrlStr) : ContentKind

/-- The `Content` record of `payload.rs` (lines 127–139): common fields plus
a flattened `ContentKind`. -/
inductive Content : Type where
  | mk (id : Uuid) (name : String) (parentFolder : Uuid) (createTime : Int)
      (kind : ContentKind) : Content
end

/-- The `id` field of `Content`. -/
def Content.id : Content → Uuid
  | .mk i _ _ _ _ => i

/-- The `name` field of `Content`. -/
def Content.name : Content → String
  | .mk _ n _ _ _ => n

/-- The `parent_folder` field of `Content`. -/
def Content.parentFolder : Content → Uuid
  | .mk _ _ p _ _ => p

/-- The `create_time` field of `Content` (unix seconds, via `ts_seconds`). -/
def Content.createTime : Content → Int
  | .mk _ _ _ t _ => t

/-- The `kind` field of `Content`. -/
def Content.kind : Content → ContentKind
  | .mk _ _ _ _ k => k

/-- The `total_size` field of a folder content (`none` on files). -/
def Content.totalSize (c : Content) : Option Nat :=
  match c.kind with
  | .Folder _ _ _ _ ts _ => ts
  | .File _ _ _ _ _ _ => none

/-- The `total_download_count` field of a folder content (`none` on files). -/
def Content.totalDownloadCount (c : Content) : Option Nat :=
  match c.kind with
  | .Folder _ _ _ tdc _ _ => tdc
  | .File _ _ _ _ _ _ => none

/-- The `contents` field of a folder content (`none` on files). -/
def Content.contents (c : Content) : Option (List (Uuid × Content)) :=
  match c.kind with
  | .Folder _ _ _ _ _ cts => cts
  | .File _ _ _ _ _ _ => none

/-! ## Request payload types and their serializers

`payload.rs` derives `Serialize` for the request payloads.  The embedding
gives each payload type a record and a function to `Json` that follows the
derive together with its field attributes (`rename_all = "camelCase"`,
`serialize_with`, `flatten`, `tag`/`content`). -/

/-- The `ContentOpt` enum of `payload.rs` (lines 55–72).  `Expire` carries a
`DateTime<Utc>`, modelled as unix seconds. -/
inductive ContentOpt : Type where
  | Public (b : Bool)
  | Password (password : String)
  | Description (description : String)
  | Expire (time : Int)
  | Tags (tags : List String)
  | DirectLink (b : Bool)
deriving DecidableEq, Repr

/-- The Rust `bool::to_string` rendering, used by the `to_string` serializer helper of
`payload.rs` for the `Public` and `DirectLink` options. -/
def boolToString (b : Bool) : String := if b then "true" else "false"

/-- Embeds `comma_separated_string_from_vec` of `payload.rs` (lines 202–209):
render each element with its `ToString` (passed as `render`) and join with
commas. -/
def commaSeparatedStringFromVec (render : α → String) (vec : List α) : String :=
  String.intercalate "," (vec.map render)

/-- The serde variant tag of a `ContentOpt` (`rename_all = "camelCase"`). -/
def ContentOpt.optionName : ContentOpt → String
  | .Public _ => "public"
  | .Password _ => "password"
  | .Description _ => "description"
  | .Expire _ => "expire"
  | .Tags _ => "tags"
  | .DirectLink _ => "directLink"

/-- The serde content value of a `ContentOpt`: booleans via `to_string`,
the expiry via `ts_seconds`, tags via `comma_separated_string_from_vec`. -/
def ContentOpt.valueJson : ContentOpt → Json
  | .Public b => .str (boolToString b)
  | .Password password => .str password
  | .Description description => .str description
  | .Expire time => .num time
  | .Tags tags => .str (commaSeparatedStringFromVec (fun s => s) tags)
  | .DirectLink b => .str (boolToString b)

/-- Serialization of `ContentOpt` as an adjacently tagged enum
(`tag = "option"`, `content = "value"`), as a field list. -/
def serializeContentOpt (opt : ContentOpt) : List (String × Json) :=
  [("option", .str opt.optionName), ("value", opt.valueJson)]

/-- The `CreateFolderApiPayload` record of `payload.rs`. -/
structure CreateFolderApiPayload : Type where
  token : String
  parent_folder_id : Uuid
  folder_name : String

/-- Serialization of `CreateFolderApiPayload` (camelCase field names). -/
def serializeCreateFolderApiPayload (p : CreateFolderApiPayload) : Json :=
  .obj [("token", .str p.token),
        ("parentFolderId", .str p.parent_folder_id.repr),
        ("folderName", .str p.folder_name)]

/-- The `UpdateContentApiPayload` record of `payload.rs`: a token plus a
flattened `ContentOpt`. -/
structure UpdateContentApiPayload : Type where
  token : String
  opt : ContentOpt

/-- Serialization of `UpdateContentApiPayload`: the token field followed by
the flattened option fields. -/
def serializeUpdateContentApiPayload (p : UpdateContentApiPayload) : Json :=
  .obj (("token", .str p.token) :: serializeContentOpt p.opt)

/-- The `CopyContentApiPayload` record of `payload.rs`. -/
structure CopyContentApiPayload : Type where
  token : String
  contents_id : List Uuid
  folder_id_dest : Uuid

/-- Serialization of `CopyContentApiPayload`: the id list is rendered by
`comma_separated_string_from_vec` over `Uuid::to_string`. -/
def serializeCopyContentApiPayload (p : CopyContentApiPayload) : Json :=
  .obj [("token", .str p.token),
        ("contentsId", .str (commaSeparatedStringFromVec Uuid.repr p.contents_id)),
        ("folderIdDest", .str p.folder_id_dest.repr)]

/-- The `DeleteContentApiPayload` record of `payload.rs`. -/
structure DeleteContentApiPayload : Type where
  token : String
  contents_id : List Uuid

/-- Serialization of `DeleteContentApiPayload`. -/
def serializeDeleteContentApiPayload (p : DeleteContentApiPayload) : Json :=
  .obj [("token", .str p.token),
        ("contentsId", .str (commaSeparatedStringFromVec Uuid.repr p.contents_id))]

/-! ## Request building

The embedding records, for each operation of `src/lib.rs`, the request it
builds: method, base URL, path, query parameters and body.  Sending and
response handling are modelled separately (`parseRes`). -/

/-- HTTP methods used by the crate. -/
inductive HttpMethod : Type where
  | GET
  | PUT
  | DELETE
  | POST
deriving DecidableEq, Repr

/-- A request body: empty (GET), a JSON payload (PUT/DELETE), or a multipart
form holding one streamed file part (its field name and file name) followed
by the text fields added in order by `upload_file_impl`. -/
inductive ReqBody : Type where
  | empty : ReqBody
  | json (payload : Json) : ReqBody
  | multipart (fileFieldName : String) (fileName : String)
      (texts : List (String × String)) : ReqBody

/-- An outgoing HTTP request as built by the crate. -/
structure Request : Type where
  method : HttpMethod
  baseUrl : String
  path : String
  query : List (String × String)
  body : ReqBody

/-- Embeds `Api::get_with_params` (request-building half): a GET with query
parameters appended in order. -/
def Api.getWithParams (base_url path : String) (params : List (String × String)) :
    Request :=
  ⟨.GET, base_url, path, params, .empty⟩

/-- Embeds `Api::put_with_payload` (request-building half). -/
def Api.putWithPayload (base_url path : String) (payload : Json) : Request :=
  ⟨.PUT, base_url, path, [], .json payload⟩

/-- Embeds `Api::delete_with_payload` (request-building half). -/
def Api.deleteWithPayload (base_url path : String) (payload : Json) : Request :=
  ⟨.DELETE, base_url, path, [], .json payload⟩

/-- The `AuthorizedApi` record of `src/lib.rs`. -/
structure AuthorizedApi : Type where
  base_url : String
  token : String

/-- Embeds `AuthorizedApi::get_content_impl` (`src/lib.rs` lines 210–217). -/
def AuthorizedApi.getContentImpl (api : AuthorizedApi) (idOrCode : String) :
    Request :=
  Api.getWithParams api.base_url ("contents/" ++ idOrCode) [("token", api.token)]

/-- Embeds `AuthorizedApi::get_content_by_id`. -/
def AuthorizedApi.getContentById (api : AuthorizedApi) (contentId : Uuid) :
    Request :=
  api.getContentImpl contentId.repr

/-- Embeds `AuthorizedApi::get_content_by_code`. -/
def AuthorizedApi.getContentByCode (api : AuthorizedApi) (code : String) :
    Request :=
  api.getContentImpl code

/-- Embeds `AuthorizedApi::get_account_id`. -/
def AuthorizedApi.getAccountId (api : AuthorizedApi) : Request :=
  Api.getWithParams api.base_url "accounts/getid" [("token", api.token)]

/-- Embeds `AuthorizedApi::get_account_details`. -/
def AuthorizedApi.getAccountDetails (api : AuthorizedApi) (accountId : Uuid) :
    Request :=
  Api.getWithParams api.base_url ("accounts/" ++ accountId.repr)
    [("token", api.token)]

/-- Embeds `AuthorizedApi::create_folder`. -/
def AuthorizedApi.createFolder (api : AuthorizedApi) (parentFolderId : Uuid)
    (folderName : String) : Request :=
  Api.putWithPayload api.base_url "contents/createFolder"
    (serializeCreateFolderApiPayload ⟨api.token, parentFolderId, folderName⟩)

/-- Embeds `AuthorizedApi::set_option` (`src/lib.rs` lines 317–330). -/
def AuthorizedApi.setOption (api : AuthorizedApi) (contentId : Uuid)
    (opt : ContentOpt) : Request :=
  Api.putWithPayload api.base_url ("contents/" ++ contentId.repr ++ "/update")
    (serializeUpdateContentApiPayload ⟨api.token, opt⟩)

/-- Embeds `AuthorizedApi::copy_content`. -/
def AuthorizedApi.copyContent (api : AuthorizedApi) (contentIds : List Uuid)
    (destFolderId : Uuid) : Request :=
  Api.putWithPayload api.base_url "contents/copy"
    (serializeCopyContentApiPayload ⟨api.token, contentIds, destFolderId⟩)

/-- Embeds `AuthorizedApi::delete_content`. -/
def AuthorizedApi.deleteContent (api : AuthorizedApi) (contentIds : List Uuid) :
    Request :=
  Api.deleteWithPayload api.base_url "contents"
    (serializeDeleteContentApiPayload ⟨api.token, contentIds⟩)

/-- Embeds `ServerApi::upload_file_impl` (`src/lib.rs` lines 423–452,
request-building half): a POST of a multipart form holding the streamed file
part, then `folderId` when given, then `token` when given. -/
def ServerApi.uploadFileImpl (base_url fileName : String) (folderId : Option Uuid)
    (token : Option String) : Request :=
  let texts :=
    (match folderId with
     | some fid => [("folderId", fid.repr)]
     | none => []) ++
    (match token with
     | some t => [("token", t)]
     | none => [])
  ⟨.POST, base_url, "contents/uploadfile", [], .multipart "file" fileName texts⟩

/-- Embeds `ServerApi::upload_file_with_filename`. -/
def ServerApi.uploadFileWithFilename (api : ServerApi) (fileName : String) :
    Request :=
  ServerApi.uploadFileImpl api.base_url fileName none none

/-- Embeds `ServerApi::upload_file_with_filename_to_folder`. -/
def ServerApi.uploadFileWithFilenameToFolder (api : ServerApi) (folderId : Uuid)
    (fileName : String) : Request :=
  ServerApi.uploadFileImpl api.base_url fileName (some folderId) none

/-- The `AuthorizedServerApi` record of `src/lib.rs`. -/
structure AuthorizedServerApi : Type where
  base_url : String
  token : String

/-- Embeds `AuthorizedServerApi::upload_file_with_filename`. -/
def AuthorizedServerApi.uploadFileWithFilename (api : AuthorizedServerApi)
    (fileName : String) : Request :=
  ServerApi.uploadFileImpl api.base_url fileName none (some api.token)

/-- Embeds `AuthorizedServerApi::upload_file_with_filename_to_folder`
(`src/lib.rs` lines 499–513). -/
def AuthorizedServerApi.uploadFileWithFilenameToFolder (api : AuthorizedServerApi)
    (folderId : Uuid) (fileName : String) : Request :=
  ServerApi.uploadFileImpl api.base_url fileName (some folderId) (some api.token)

/-! ## Response deserialization

`payload.rs` derives `Deserialize` for the response types.  The embedding
gives each a function `Json → Except String α` following the derive and the
field attributes (`rename_all = "camelCase"`, `tag = "type"`, `flatten`,
`with = "ts_seconds"`, `with = "hex::serde"`, `deserialize_with =
"mime_from_str"`, `#[serde(default)]`).  Unknown fields are ignored, as serde
does by default. -/

/-- Read a mandatory field of a JSON object. -/
def getField (o : List (String × Json)) (k : String) : Except String Json :=
  match Json.lookup o k with
  | some v => .ok v
  | none => .error ("missing field " ++ k)

/-- Deserialize a JSON string. -/
def asStr : Json → Except String String
  | .str s => .ok s
  | _ => .error "a JSON string was required here"

/-- Deserialize a JSON boolean. -/
def asBool : Json → Except String Bool
  | .bool b => .ok b
  | _ => .error "a JSON boolean was required here"

/-- Deserialize an unsigned integer (`u32`/`u64`): a non-negative JSON
number. -/
def asNatNum : Json → Except String Nat
  | .num n => if n < 0 then .error "an unsigned JSON integer was required here" else .ok n.toNat
  | _ => .error "an unsigned JSON integer was required here"

/-- Deserialize a `DateTime<Utc>` through `ts_seconds`: a JSON number of
unix seconds. -/
def asIntNum : Json → Except String Int
  | .num n => .ok n
  | _ => .error "a unix-seconds JSON number was required here"

/-- Deserialize a `Uuid` from a JSON string. -/
def parseUuidJson (j : Json) : Except String Uuid := do
  let s ← asStr j
  match parseUuid s with
  | some u => .ok u
  | none => .error "invalid uuid"

/-- Build an md5 digest from decoded bytes, checking the `[u8; 16]` arity. -/
def mkMd5 (bs : List Nat) : Option Md5 :=
  if h : bs.length = 16 ∧ bs.all isByte = true then some ⟨bs, h.1, h.2⟩ else none

/-- Embeds `hex::serde` deserialization into `[u8; 16]`: hex-decode the string and
check the length. -/
def parseMd5 (s : String) : Option Md5 := (hexDecode s.toList).bind mkMd5

/-- Deserialize an md5 digest from a JSON string. -/
def parseMd5Json (j : Json) : Except String Md5 := do
  let s ← asStr j
  match parseMd5 s with
  | some m => .ok m
  | none => .error "invalid md5 hex"

/-- Embeds `mime_from_str` of `payload.rs` (lines 191–200): deserialize a string
and parse it as a MIME type. -/
def parseMimeJson (j : Json) : Except String Mime := do
  let s ← asStr j
  match parseMime s with
  | some m => .ok m
  | none => .error "invalid mime type"

/-- Deserialize a `Url` payload field from a JSON string. -/
def parseUrlJson (j : Json) : Except String UrlStr := do
  let s ← asStr j
  match parseUrlStr s with
  | some u => .ok u
  | none => .error "invalid url"

/-- Deserialize a list of uuids (the `childrenIds` field). -/
def parseUuidList : Json → Except String (List Uuid)
  | .arr l => l.mapM parseUuidJson
  | _ => .error "a JSON array was required here"

/-- Deserialize an `Option<u32>`/`Option<u64>` field: missing or `null` is
`None`, as serde treats `Option` fields. -/
def optNatField (o : List (String × Json)) (k : String) : Except String (Option Nat) :=
  match Json.lookup o k with
  | none => .ok none
  | some .null => .ok none
  | some v => (asNatNum v).map some

mutual
/-- The derived deserializer of `Content` (`payload.rs` lines 127–172): the
common fields, then dispatch on the `type` tag into the folder or file
fields.  `public` falls back to `false` when missing (`#[serde(default)]`);
`totalDownloadCount`, `totalSize` and `contents` are `Option` fields, absent
when missing or `null`. -/
def deserializeContent (j : Json) : Except String Content :=
  match j with
  | .obj o =>
      match Json.lookup o "type" with
      | some (.str tag) =>
          if tag = "folder" then do
          let id ← getField o "id" >>= parseUuidJson
          let name ← getField o "name" >>= asStr
          let parentFolder ← getField o "parentFolder" >>= parseUuidJson
          let createTime ← getField o "createTime" >>= asIntNum
          let code ← getField o "code" >>= asStr
          let isPublic ←
            match Json.lookup o "public" with
            | none => Except.ok false
            | some v => asBool v
          let childrenIds ← getField o "childrenIds" >>= parseUuidList
          let totalDownloadCount ← optNatField o "totalDownloadCount"
          let totalSize ← optNatField o "totalSize"
          let contents ← optContentsField o
          pure (Content.mk id name parentFolder createTime
            (ContentKind.Folder code isPublic childrenIds totalDownloadCount
              totalSize contents))
          else if tag = "file" then do
          let id ← getField o "id" >>= parseUuidJson
          let name ← getField o "name" >>= asStr
          let parentFolder ← getField o "parentFolder" >>= parseUuidJson
          let createTime ← getField o "createTime" >>= asIntNum
          let size ← getField o "size" >>= asNatNum
          let downloadCount ← getField o "downloadCount" >>= asNatNum
          let md5 ← getField o "md5" >>= parseMd5Json
          let mimetype ← getField o "mimetype" >>= parseMimeJson
          let serverChoosen ← getField o "serverChoosen" >>= asStr
          let link ← getField o "link" >>= parseUrlJson
          pure (Content.mk id name parentFolder createTime
            (ContentKind.File size downloadCount md5 mimetype serverChoosen link))
          else .error "unknown content type"
      | some _ => .error "the type tag must be a string"
      | none => .error "missing field type"
  | _ => .error "a JSON object was required here"
termination_by sizeOf j
decreasing_by
  all_goals simp_wf
  all_goals first
    | omega
    | (simp; omega)
    | simp

/-- Deserialize the `Option<HashMap<Uuid, Content>>` field `contents`:
missing or `null` is `None`, an object is the nested map. -/
def optContentsField (o : List (String × Json)) :
    Except String (Option (List (Uuid × Content))) :=
  match h : Json.lookup o "contents" with
  | none => Except.ok none
  | some .null => Except.ok none
  | some (.obj entries) => (deserializeContentEntries entries).map some
  | some _ => Except.error "the contents map must be a JSON object"
termination_by sizeOf o
decreasing_by
  simp_wf
  have key : ∀ (l : List (String × Json)) (k : String) (v : Json),
      Json.lookup l k = some v → sizeOf v < sizeOf l := by
    intro l k v hl
    induction l with
    | nil => simp [Json.lookup] at hl
    | cons hd tl ih =>
        rw [Json.lookup] at hl
        split at hl
        · cases hl
          cases hd
          simp
          omega
        · have := ih hl
          simp at this ⊢
          omega
  have := key o "contents" _ h
  simp at this
  omega

/-- Deserialize the entries of a `contents` map (`HashMap<Uuid, Content>`):
each key is a uuid, each value a nested `Content`. -/
def deserializeContentEntries (entries : List (String × Json)) :
    Except String (List (Uuid × Content)) :=
  match entries with
  | [] => .ok []
  | (k, v) :: rest => do
      let key ←
        match parseUuid k with
        | some u => Except.ok u
        | none => Except.error "invalid uuid key"
      let c ← deserializeContent v
      let tail ← deserializeContentEntries rest
      pure ((key, c) :: tail)
termination_by sizeOf entries
decreasing_by
  all_goals simp_wf
  all_goals first
    | omega
    | (simp; omega)
end

/-- The derived deserializer of the `ApiResult` envelope (`payload.rs`
lines 93–98), parameterised by the payload deserializer. -/
def deserializeApiResult (deData : Json → Except String α) (j : Json) :
    Except String (ApiResult α) :=
  match j with
  | .obj o => do
      let status ← getField o "status" >>= asStr
      let d ← getField o "data" >>= deData
      pure ⟨status, d⟩
  | _ => .error "a JSON object was required here"

/-- An HTTP response as observed by `Api::parse_res`: its status code, its
URL, and its body as JSON (`none` when the body fails to read or parse as
JSON, the case in which `res.json()` fails for any target type). -/
structure Response : Type where
  status : StatusCode
  url : Url
  body : Option Json

/-- Embeds `Api::parse_res` (`src/lib.rs` lines 160–179), parameterised by the
typed payload deserializer.  A non-OK status is reported as
`ApiStatusError` when the body still parses as an envelope and as
`HttpStatusCodeError` otherwise; an OK status with a non-`"ok"` envelope
status is `ApiStatusError`; decode failures on the OK path surface through
`From<reqwest::Error>` as `HttpRequestError`. -/
def parseRes (deData : Json → Except String α) (res : Response) : Except Error α :=
  if res.status ≠ 200 then
    match res.body.bind (fun j => (deserializeApiResult Except.ok j).toOption) with
    | some envelope => .error (.ApiStatusError res.url envelope.status)
    | none => .error (.HttpStatusCodeError res.url res.status)
  else
    match res.body with
    | none => .error (.HttpRequestError (some res.url) "error decoding response body")
    | some j =>
        match deserializeApiResult deData j with
        | .error e => .error (.HttpRequestError (some res.url) e)
        | .ok envelope =>
            if envelope.status ≠ "ok" then .error (.ApiStatusError res.url envelope.status)
            else .ok envelope.data

/-! ## Canonical serialization of the response types

The crate derives only `Deserialize` for `ApiResult` and `Content`; no
`Serialize` impl exists under `src/`.  The spec nevertheless speaks of an
envelope round-trip and a tagged-union round-trip, so the serializers are
modelled from the spec as the canonical inverse the serde derive would
produce (camelCase keys, the `type`/`option` tags, `null` for absent
`Option` fields, lowercase hex for digests, unix seconds for times). -/

/-- Serialize an `Option<u32>`/`Option<u64>` field (`null` when absent). -/
def serOptNat : Option Nat → Json
  | none => .null
  | some n => .num n

mutual
/-- Modelled from the spec: the serializer of `Content` that serde would
derive, matching `deserializeContent` key by key; no `Serialize` impl for
`Content` exists under `src/`. -/
def serializeContent (c : Content) : Json :=
  match c with
  | .mk id name parentFolder createTime kind =>
      .obj (("id", .str id.repr) :: ("name", .str name) ::
        ("parentFolder", .str parentFolder.repr) ::
        ("createTime", .num createTime) :: serializeContentKind kind)

/-- Modelled from the spec: the field list of a serialized `ContentKind`,
starting with its `type` tag. -/
def serializeContentKind (kind : ContentKind) : List (String × Json) :=
  match kind with
  | .Folder code isPublic childrenIds totalDownloadCount totalSize contents =>
      ("type", .str "folder") :: ("code", .str code) ::
      ("public", .bool isPublic) ::
      ("childrenIds", .arr (childrenIds.map (fun u => .str u.repr))) ::
      ("totalDownloadCount", serOptNat totalDownloadCount) ::
      ("totalSize", serOptNat totalSize) ::
      [("contents", serializeContentsOpt contents)]
  | .File size downloadCount md5 mimetype serverChoosen link =>
      ("type", .str "file") :: ("size", .num size) ::
      ("downloadCount", .num downloadCount) ::
      ("md5", .str (String.mk (hexEncode md5.bytes))) ::
      ("mimetype", .str mimetype.repr) ::
      ("serverChoosen", .str serverChoosen) ::
      [("link", .str link.repr)]

/-- Modelled from the spec: serialization of an optional `contents` map. -/
def serializeContentsOpt (contents : Option (List (Uuid × Content))) : Json :=
  match contents with
  | none => .null
  | some entries => .obj (serializeContentEntries entries)

/-- Modelled from the spec: serialization of the entries of a `contents`
map, keys rendered canonically. -/
def serializeContentEntries (entries : List (Uuid × Content)) :
    List (String × Json) :=
  match entries with
  | [] => []
  | (k, c) :: rest => (k.repr, serializeContent c) :: serializeContentEntries rest
end

/-- Modelled from the spec: the serializer of the `ApiResult` envelope that
serde would derive, parameterised by the payload serializer; no `Serialize`
impl for `ApiResult` exists under `src/`. -/
def serializeApiResult (serData : α → Json) (r : ApiResult α) : Json :=
  .obj [("status", .str r.status), ("data", serData r.data)]

/-! ## Upload progress

In `src/lib.rs`, `upload_file_impl` hands the file to the HTTP client as a
streamed multipart part; the revision under `src/` carries no progress
callback, while the spec describes the upload as optionally reporting
cumulative bytes transferred.  The counter is therefore modelled from the
spec. -/

/-- Modelled from the spec: the progress counter of the streamed multipart
upload, missing from the `src/` revision.  Given the total file size, the
chunk sizes the body stream yields, and the count already reported, it
produces the successive reported values: each report adds the chunk just
sent and saturates at the total file size. -/
def progressReports (total : Nat) (chunks : List Nat) (sent : Nat) : List Nat :=
  match chunks with
  | [] => []
  | c :: rest =>
      let sent' := min (sent + c) total
      sent' :: progressReports total rest sent'

/-! ## Concrete sample values

Used by the concrete evaluations below; the test vectors follow the test suite
of the crate (`payload.rs` tests). -/

/-- A sample uuid. -/
def uuidA : Uuid := ⟨"00000000-0000-0000-0000-00000000000a", by decide⟩

/-- A sample uuid. -/
def uuidB : Uuid := ⟨"00000000-0000-0000-0000-00000000000b", by decide⟩

/-- A sample uuid. -/
def uuidC : Uuid := ⟨"00000000-0000-0000-0000-00000000000c", by decide⟩

/-- The digest `000000000000000000000000000001ff` used by the tests of the crate. -/
def md5Sample : Md5 :=
  ⟨[0, 0, 0, 0, 0, 0, 0, 0, 0, 0, 0, 0, 0, 0, 1, 255], by decide, by decide⟩

/-- A sample MIME type. -/
def mimeSample : Mime := ⟨"text/plain", by decide⟩

/-- A sample link. -/
def urlSample : UrlStr := ⟨"http://example.com/path/file.txt", by decide⟩

/-- A sample file document, following the test vector of the crate. -/
def fileDoc : Json :=
  .obj [("id", .str uuidA.repr), ("name", .str "foz"),
        ("parentFolder", .str uuidB.repr), ("createTime", .num 1000000003),
        ("type", .str "file"), ("size", .num 20), ("downloadCount", .num 10),
        ("md5", .str "000000000000000000000000000001ff"),
        ("mimetype", .str "text/plain"), ("serverChoosen", .str "fez"),
        ("link", .str "http://example.com/path/file.txt")]

/-- The value `fileDoc` deserializes to. -/
def fileContent : Content :=
  .mk uuidA "foz" uuidB 1000000003
    (.File 20 10 md5Sample mimeSample "fez" urlSample)

/-- A nested (below-root) folder document that carries the aggregate
fields and a (empty) nested map of its own. -/
def nestedAggChildDoc : Json :=
  .obj [("id", .str uuidC.repr), ("name", .str "child"),
        ("parentFolder", .str uuidA.repr), ("createTime", .num 5),
        ("type", .str "folder"), ("code", .str "k"),
        ("childrenIds", .arr []),
        ("totalDownloadCount", .num 3), ("totalSize", .num 7),
        ("contents", .obj [])]

/-- A folder document whose nested child folder carries the aggregate
fields. -/
def nestedAggDoc : Json :=
  .obj [("id", .str uuidA.repr), ("name", .str "root"),
        ("parentFolder", .str uuidB.repr), ("createTime", .num 4),
        ("type", .str "folder"), ("code", .str "r"),
        ("childrenIds", .arr [.str uuidC.repr]),
        ("contents", .obj [(uuidC.repr, nestedAggChildDoc)])]

/-- The nested child value inside `nestedAggDoc`. -/
def nestedAggChild : Content :=
  .mk uuidC "child" uuidA 5 (.Folder "k" false [] (some 3) (some 7) (some []))

/-- The root value `nestedAggDoc` deserializes to. -/
def nestedAggRoot : Content :=
  .mk uuidA "root" uuidB 4
    (.Folder "r" false [uuidC] none none (some [(uuidC, nestedAggChild)]))

/-- The fields of a folder document with an unknown extra field and no
`public` field. -/
def extraFieldFields : List (String × Json) :=
  [("id", .str uuidA.repr), ("name", .str "n"),
   ("parentFolder", .str uuidB.repr), ("createTime", .num 5),
   ("type", .str "folder"), ("code", .str "c"),
   ("childrenIds", .arr []), ("zzz", .str "extra")]

/-- A folder document with an unknown extra field and no `public` field. -/
def extraFieldDoc : Json := .obj extraFieldFields

/-- The value `extraFieldDoc` deserializes to. -/
def extraFieldContent : Content :=
  .mk uuidA "n" uuidB 5 (.Folder "c" false [] none none none)

/-! ## Lemmas about the embedded parsers -/

theorem bind_ok_iff {e : Except String β} {f : β → Except String γ} {c : γ} :
    (e >>= f = .ok c) ↔ ∃ b, e = .ok b ∧ f b = .ok c := by
  cases e <;> simp [Bind.bind, Except.bind]

theorem map_ok_iff {f : β → γ} {e : Except String β} {c : γ} :
    (Except.map f e = .ok c) ↔ ∃ b, e = .ok b ∧ f b = c := by
  cases e <;> simp [Except.map] <;> exact fun _ => (by constructor <;> (intro h; exact h.symm))

theorem getField_ok_iff {o : List (String × Json)} {k : String} {v : Json} :
    getField o k = .ok v ↔ Json.lookup o k = some v := by
  unfold getField
  cases Json.lookup o k <;> simp

theorem asStr_ok_iff {j : Json} {s : String} : asStr j = .ok s ↔ j = .str s := by
  cases j <;> simp [asStr]

theorem asBool_ok_iff {j : Json} {b : Bool} : asBool j = .ok b ↔ j = .bool b := by
  cases j <;> simp [asBool]

theorem asIntNum_ok_iff {j : Json} {n : Int} : asIntNum j = .ok n ↔ j = .num n := by
  cases j <;> simp [asIntNum]

theorem asNatNum_ok_iff {j : Json} {n : Nat} :
    asNatNum j = .ok n ↔ ∃ m : Int, j = .num m ∧ 0 ≤ m ∧ m.toNat = n := by
  cases j with
  | num m =>
      simp only [asNatNum]
      by_cases hm : m < 0
      · simp [hm]
      · simp [hm]
        omega
  | _ => simp [asNatNum]

theorem parseUuidJson_ok_iff {j : Json} {u : Uuid} :
    parseUuidJson j = .ok u ↔ ∃ s, j = .str s ∧ parseUuid s = some u := by
  cases j <;> simp [parseUuidJson, asStr, bind_ok_iff]
  cases parseUuid _ <;> simp_all

theorem parseMd5Json_ok_iff {j : Json} {m : Md5} :
    parseMd5Json j = .ok m ↔ ∃ s, j = .str s ∧ parseMd5 s = some m := by
  cases j <;> simp [parseMd5Json, asStr, bind_ok_iff]
  cases parseMd5 _ <;> simp_all

theorem parseMimeJson_ok_iff {j : Json} {m : Mime} :
    parseMimeJson j = .ok m ↔ ∃ s, j = .str s ∧ parseMime s = some m := by
  cases j <;> simp [parseMimeJson, asStr, bind_ok_iff]
  cases parseMime _ <;> simp_all

theorem parseUrlJson_ok_iff {j : Json} {u : UrlStr} :
    parseUrlJson j = .ok u ↔ ∃ s, j = .str s ∧ parseUrlStr s = some u := by
  cases j <;> simp [parseUrlJson, asStr, bind_ok_iff]
  cases parseUrlStr _ <;> simp_all

/-- An optional numeric field deserializes to `none` exactly when the key is
missing or bound to `null`. -/
theorem optNatField_ok_none {o : List (String × Json)} {k : String} {v : Option Nat}
    (h : optNatField o k = .ok v) :
    v = none ↔ (Json.lookup o k = none ∨ Json.lookup o k = some .null) := by
  unfold optNatField at h
  rcases hl : Json.lookup o k with - | w
  · rw [hl] at h
    cases h
    simp
  · rw [hl] at h
    cases w <;> simp_all [asNatNum, Except.map]
    split at h <;> cases h
    simp

/-- The `contents` field deserializes to `none` exactly when the key is
missing or bound to `null`. -/
theorem optContentsField_ok_none {o : List (String × Json)}
    {v : Option (List (Uuid × Content))} (h : optContentsField o = .ok v) :
    v = none ↔ (Json.lookup o "contents" = none ∨ Json.lookup o "contents" = some .null) := by
  rw [optContentsField] at h
  rcases hl : Json.lookup o "contents" with - | w
  · rw [hl] at h
    cases h
    simp
  · rw [hl] at h
    cases w <;> simp_all [Except.map]
    split at h <;> cases h
    simp

theorem asNatNum_natCast (n : Nat) : asNatNum (.num (n : Int)) = .ok n := by
  rw [asNatNum, if_neg (Int.not_lt.mpr (Int.natCast_nonneg n))]
  simp

theorem parseUuid_repr (u : Uuid) : parseUuid u.repr = some u := by
  cases u with
  | mk r hv => rw [parseUuid, dif_pos hv]

theorem parseMime_repr (m : Mime) : parseMime m.repr = some m := by
  cases m with
  | mk r hv => rw [parseMime, dif_pos hv]

theorem parseUrlStr_repr (u : UrlStr) : parseUrlStr u.repr = some u := by
  cases u with
  | mk r hv => rw [parseUrlStr, dif_pos hv]

theorem nibbleVal_nibbleChar : ∀ n : Nat, n < 16 → nibbleVal (nibbleChar n) = some n := by
  decide

theorem hexDecode_hexEncode {bs : List Nat} (h : bs.all isByte = true) :
    hexDecode (hexEncode bs) = some bs := by
  induction bs with
  | nil => rfl
  | cons b rest ih =>
      rw [List.all_cons, Bool.and_eq_true] at h
      have hb : b < 256 := by
        have := h.1
        simpa [isByte] using this
      have h1 : b / 16 < 16 := by omega
      have h2 : b % 16 < 16 := by omega
      rw [hexEncode, List.flatMap_cons]
      show hexDecode (nibbleChar (b / 16) :: nibbleChar (b % 16) :: hexEncode rest) = _
      rw [hexDecode]
      rw [nibbleVal_nibbleChar _ h1, nibbleVal_nibbleChar _ h2]
      have hmod : b / 16 * 16 + b % 16 = b := by omega
      simp [ih h.2, hmod]

theorem parseMd5_hexEncode (m : Md5) :
    parseMd5 (String.mk (hexEncode m.bytes)) = some m := by
  cases m with
  | mk bs hlen hrange =>
      show (hexDecode (String.toList ⟨hexEncode bs⟩)).bind mkMd5 = _
      have : String.toList ⟨hexEncode bs⟩ = hexEncode bs := rfl
      rw [this, hexDecode_hexEncode hrange]
      show mkMd5 bs = _
      rw [mkMd5, dif_pos ⟨hlen, hrange⟩]

theorem mapM_parseUuidJson_map (l : List Uuid) :
    (l.map (fun u => Json.str u.repr)).mapM parseUuidJson = .ok l := by
  induction l with
  | nil => rfl
  | cons u rest ih =>
      have hu : parseUuidJson (Json.str u.repr) = .ok u := by
        simp [parseUuidJson, asStr, parseUuid_repr, Bind.bind, Except.bind]
      have hloop : List.mapM.loop parseUuidJson (List.map (fun u => Json.str u.repr) rest) []
          = Except.ok rest := ih
      rw [List.map_cons, List.mapM_cons, hu]
      simp [Bind.bind, Except.bind, hloop, pure, Except.pure]

theorem mapM_loop_parseUuidJson_map (l : List Uuid) :
    List.mapM.loop parseUuidJson (List.map (fun u => Json.str u.repr) l) [] = .ok l :=
  mapM_parseUuidJson_map l

theorem pure_ok_iff {γ : Type} {b c : γ} : (pure b : Except String γ) = .ok c ↔ b = c := by
  simp [pure, Except.pure]

theorem fmap_ok_iff {f : β → γ} {e : Except String β} {c : γ} :
    (f <$> e = .ok c) ↔ ∃ b, e = .ok b ∧ f b = c := by
  cases e <;> simp [Functor.map, Except.map] <;>
    exact fun _ => (by constructor <;> (intro h; exact h.symm))

/-- Inversion of a successful `deserializeContent`: the input is a JSON
object, its `type` tag is `"folder"` or `"file"`, the kind of the parsed value
matches the tag, and each field of the value comes from the corresponding
key of the object through the matching field parser. -/
theorem deserializeContent_ok_inv {j : Json} {c : Content}
    (h : deserializeContent j = .ok c) :
    ∃ o, j = .obj o ∧
      (∃ ids, Json.lookup o "id" = some (.str ids) ∧ parseUuid ids = some c.id) ∧
      Json.lookup o "name" = some (.str c.name) ∧
      (∃ ps, Json.lookup o "parentFolder" = some (.str ps) ∧
        parseUuid ps = some c.parentFolder) ∧
      Json.lookup o "createTime" = some (.num c.createTime) ∧
      ((Json.lookup o "type" = some (.str "folder") ∧
        ∃ code isPublic cids tdc ts cts,
          c.kind = .Folder code isPublic cids tdc ts cts ∧
          Json.lookup o "code" = some (.str code) ∧
          (∃ cj, Json.lookup o "childrenIds" = some cj ∧ parseUuidList cj = .ok cids) ∧
          optNatField o "totalDownloadCount" = .ok tdc ∧
          optNatField o "totalSize" = .ok ts ∧
          optContentsField o = .ok cts) ∨
       (Json.lookup o "type" = some (.str "file") ∧
        ∃ size downloadCount md5 mimetype serverChoosen link,
          c.kind = .File size downloadCount md5 mimetype serverChoosen link ∧
          (∃ m : Int, Json.lookup o "size" = some (.num m) ∧ 0 ≤ m ∧ m.toNat = size) ∧
          (∃ ds, Json.lookup o "md5" = some (.str ds) ∧ parseMd5 ds = some md5) ∧
          (∃ ms, Json.lookup o "mimetype" = some (.str ms) ∧ parseMime ms = some mimetype) ∧
          (∃ ls, Json.lookup o "link" = some (.str ls) ∧ parseUrlStr ls = some link))) := by
  cases j with
  | obj o =>
      rw [deserializeContent] at h
      split at h
      · rename_i tag htag
        split at h
        · rename_i hf
          subst hf
          simp only [bind_ok_iff, getField_ok_iff, parseUuidJson_ok_iff, asStr_ok_iff,
            asIntNum_ok_iff, pure_ok_iff] at h
          obtain ⟨id, ⟨j1, hidlook, sid, rfl, hidparse⟩, nm, ⟨j2, hnmlook, rfl⟩,
            pf, ⟨j3, hpflook, spf, rfl, hpfparse⟩, ct, ⟨j4, hctlook, rfl⟩,
            code, ⟨j5, hcodelook, rfl⟩, hrest⟩ := h
          split at hrest <;>
          · simp only [bind_ok_iff, getField_ok_iff, pure_ok_iff, asBool_ok_iff,
              Except.ok.injEq] at hrest
            obtain ⟨isPublic, -, cids, ⟨cj, hcidlook, hcidparse⟩,
              tdc, htdc, ts, hts, cts, hcts, rfl⟩ := hrest
            exact ⟨o, rfl, ⟨sid, hidlook, hidparse⟩, hnmlook, ⟨spf, hpflook, hpfparse⟩,
              hctlook,
              Or.inl ⟨htag, code, isPublic, cids, tdc, ts, cts, rfl, hcodelook,
                ⟨cj, hcidlook, hcidparse⟩, htdc, hts, hcts⟩⟩
        · rename_i hf
          split at h
          · rename_i hfi
            subst hfi
            simp only [bind_ok_iff, getField_ok_iff, parseUuidJson_ok_iff, asStr_ok_iff,
              asIntNum_ok_iff, asNatNum_ok_iff, parseMd5Json_ok_iff, parseMimeJson_ok_iff,
              parseUrlJson_ok_iff, pure_ok_iff, fmap_ok_iff] at h
            obtain ⟨id, ⟨j1, hidlook, sid, rfl, hidparse⟩, nm, ⟨j2, hnmlook, rfl⟩,
              pf, ⟨j3, hpflook, spf, rfl, hpfparse⟩, ct, ⟨j4, hctlook, rfl⟩,
              size, ⟨j6, hszlook, m, rfl, hmnn, hmval⟩,
              dc, ⟨j7, hdclook, m2, rfl, hm2nn, hm2val⟩,
              md5v, ⟨j8, hmdlook, smd, rfl, hmdparse⟩,
              mim, ⟨j9, hmimlook, smi, rfl, hmimparse⟩,
              srv, ⟨j10, hsrvlook, rfl⟩,
              link, ⟨j11, hlklook, slk, rfl, hlkparse⟩, rfl⟩ := h
            exact ⟨o, rfl, ⟨sid, hidlook, hidparse⟩, hnmlook, ⟨spf, hpflook, hpfparse⟩,
              hctlook,
              Or.inr ⟨htag, size, dc, md5v, mim, srv, link, rfl,
                ⟨m, hszlook, hmnn, hmval⟩, ⟨smd, hmdlook, hmdparse⟩,
                ⟨smi, hmimlook, hmimparse⟩, ⟨slk, hlklook, hlkparse⟩⟩⟩
          · simp at h
      · simp at h
      · simp at h
  | null => simp [deserializeContent] at h
  | bool b => simp [deserializeContent] at h
  | num n => simp [deserializeContent] at h
  | str s => simp [deserializeContent] at h
  | arr l => simp [deserializeContent] at h

/-- Value-level round-trip by strong induction on size: deserializing the
canonical serialization of a value returns that value, both for single
contents and for entry lists of a nested map. -/
theorem roundtripAux (n : Nat) :
    (∀ c : Content, sizeOf c ≤ n → deserializeContent (serializeContent c) = .ok c) ∧
    (∀ l : List (Uuid × Content), sizeOf l ≤ n →
      deserializeContentEntries (serializeContentEntries l) = .ok l) := by
  induction n using Nat.strong_induction_on with
  | _ n ih =>
    constructor
    · rintro ⟨id, nm, pf, ct, kind⟩ hc
      cases kind with
      | Folder code isPublic cids tdc ts cts =>
          rcases cts with - | entries
          · cases tdc <;> cases ts <;>
              simp [serializeContent, serializeContentKind, serializeContentsOpt,
                serOptNat, deserializeContent, Json.lookup, getField, parseUuidJson,
                asStr, asIntNum, asBool, parseUuid_repr, parseUuidList,
                mapM_parseUuidJson_map, mapM_loop_parseUuidJson_map,
                optNatField, asNatNum_natCast, optContentsField,
                Except.map, bind, Except.bind, pure, Except.pure]
          · have h1 : sizeOf entries < sizeOf (Content.mk id nm pf ct
                (ContentKind.Folder code isPublic cids tdc ts (some entries))) := by
              simp <;> omega
            have hsz : sizeOf entries < n := by omega
            have hE := (ih (sizeOf entries) hsz).2 entries le_rfl
            cases tdc <;> cases ts <;>
              simp [serializeContent, serializeContentKind, serializeContentsOpt,
                serOptNat, deserializeContent, Json.lookup, getField, parseUuidJson,
                asStr, asIntNum, asBool, parseUuid_repr, parseUuidList,
                mapM_parseUuidJson_map, mapM_loop_parseUuidJson_map,
                optNatField, asNatNum_natCast, optContentsField,
                hE, Except.map, bind, Except.bind, pure, Except.pure]
      | File size dc md5 mim srv link =>
          simp [serializeContent, serializeContentKind, deserializeContent, Json.lookup,
            getField, parseUuidJson, asStr, asIntNum, asNatNum_natCast, parseMd5Json,
            parseMimeJson, parseUrlJson, parseUuid_repr, parseMd5_hexEncode,
            parseMime_repr, parseUrlStr_repr, bind, Except.bind, pure, Except.pure]
    · intro l hl
      cases l with
      | nil => simp [serializeContentEntries, deserializeContentEntries]
      | cons p rest =>
          obtain ⟨k, c⟩ := p
          have h1 : sizeOf c < sizeOf ((k, c) :: rest) := by simp <;> omega
          have h2 : sizeOf rest < sizeOf ((k, c) :: rest) := by simp <;> omega
          have hC := (ih (sizeOf c) (by omega)).1 c le_rfl
          have hR := (ih (sizeOf rest) (by omega)).2 rest le_rfl
          simp [serializeContentEntries, deserializeContentEntries, parseUuid_repr,
            hC, hR, bind, Except.bind, pure, Except.pure]

/-! ## Claim theorems -/

/-- C8: `Api::get_server` selects exactly the first server of the decoded
`servers` payload and returns a `ServerApi` whose `base_url` is
`https://<name>.gofile.io`; an empty list yields `Error::EmptyServerList`. -/
theorem C8_get_server_first :
    getServer ⟨[]⟩ = .error .EmptyServerList ∧
    ∀ (s : Server) (rest : List Server),
      getServer ⟨s :: rest⟩ = .ok ⟨"https://" ++ s.name ++ ".gofile.io"⟩ :=
  ⟨rfl, fun _ _ => rfl⟩

/-- C9: `Api::code_from_content_url` returns `Ok` with the second path
segment exactly when the URL has path segments, the first is `"d"`, and a
second exists (later segments being ignored); in every other case it
returns `Error::InvalidContentUrl` carrying the URL. -/
theorem C9_code_from_content_url (u : Url) :
    (∀ code, codeFromContentUrl u = .ok code ↔
      ∃ rest, u.pathSegments = some ("d" :: code :: rest)) ∧
    ((¬ ∃ code rest, u.pathSegments = some ("d" :: code :: rest)) →
      ∃ msg, codeFromContentUrl u = .error (.InvalidContentUrl u msg)) := by
  obtain ⟨r, segs⟩ := u
  rcases segs with - | l
  · exact ⟨fun code => by simp [codeFromContentUrl], fun _ => ⟨_, rfl⟩⟩
  · rcases l with - | ⟨s, rest⟩
    · exact ⟨fun code => by simp [codeFromContentUrl], fun _ => ⟨_, rfl⟩⟩
    · by_cases hs : s = "d"
      · subst hs
        rcases rest with - | ⟨c0, rest'⟩
        · refine ⟨fun code => by simp [codeFromContentUrl], fun _ => ?_⟩
          exact ⟨"The content url must have two path segments like \x27/d/XXXX\x27.",
            by simp [codeFromContentUrl]⟩
        · refine ⟨fun code => ?_, fun h => ?_⟩
          · simp only [codeFromContentUrl, if_pos rfl]
            constructor
            · intro h
              cases h
              exact ⟨rest', rfl⟩
            · rintro ⟨rest'', heq⟩
              simp only [Option.some.injEq, List.cons.injEq] at heq
              simp [heq.2.1]
          · exact absurd ⟨c0, rest', rfl⟩ h
      · refine ⟨fun code => ?_, fun h => ?_⟩
        · simp [codeFromContentUrl, hs]
        · exact ⟨"The first path segment of content url must be \x27d\x27.",
            by simp [codeFromContentUrl, hs]⟩

/-- Witness for C9: a URL with three segments under `d` yields the second
segment, and a URL whose first segment is not `d` is rejected with
`InvalidContentUrl`. -/
theorem C9_code_from_content_url_witness :
    codeFromContentUrl ⟨"https://gofile.io/d/abc/extra", some ["d", "abc", "extra"]⟩ =
      .ok "abc" ∧
    ∃ msg, codeFromContentUrl ⟨"https://gofile.io/x", some ["x"]⟩ =
      .error (.InvalidContentUrl ⟨"https://gofile.io/x", some ["x"]⟩ msg) :=
  ⟨((C9_code_from_content_url _).1 "abc").mpr ⟨["extra"], rfl⟩,
   (C9_code_from_content_url _).2 (by simp)⟩

/-- C10: request payload serialization flattens non-string values to the
string conventions of the API: booleans as `"true"`/`"false"`, id and tag lists
as one comma-joined string (empty list giving the empty string), the expiry
as integer unix seconds, and every `ContentOpt` under the adjacent keys
`option` (camelCase variant name) and `value`. -/
theorem C10_serialization_conventions :
    (∀ b, serializeContentOpt (.Public b) =
      [("option", .str "public"), ("value", .str (if b then "true" else "false"))]) ∧
    (∀ s, serializeContentOpt (.Password s) =
      [("option", .str "password"), ("value", .str s)]) ∧
    (∀ s, serializeContentOpt (.Description s) =
      [("option", .str "description"), ("value", .str s)]) ∧
    (∀ t, serializeContentOpt (.Expire t) =
      [("option", .str "expire"), ("value", .num t)]) ∧
    (∀ tags, serializeContentOpt (.Tags tags) =
      [("option", .str "tags"), ("value", .str (String.intercalate "," tags))]) ∧
    (∀ b, serializeContentOpt (.DirectLink b) =
      [("option", .str "directLink"), ("value", .str (if b then "true" else "false"))]) ∧
    (∀ f : Uuid → String, commaSeparatedStringFromVec f [] = "") ∧
    (∀ p : CopyContentApiPayload, serializeCopyContentApiPayload p =
      .obj [("token", .str p.token),
            ("contentsId", .str (String.intercalate "," (p.contents_id.map Uuid.repr))),
            ("folderIdDest", .str p.folder_id_dest.repr)]) ∧
    (∀ p : DeleteContentApiPayload, serializeDeleteContentApiPayload p =
      .obj [("token", .str p.token),
            ("contentsId", .str (String.intercalate "," (p.contents_id.map Uuid.repr)))]) := by
  refine ⟨fun b => ?_, fun s => rfl, fun s => rfl, fun t => rfl, fun tags => ?_,
    fun b => ?_, fun f => rfl, fun p => rfl, fun p => rfl⟩
  · cases b <;> rfl
  · simp [serializeContentOpt, ContentOpt.valueJson, ContentOpt.optionName,
      commaSeparatedStringFromVec]
  · cases b <;> rfl

/-- C3: every operation of `AuthorizedApi`/`AuthorizedServerApi` threads
the stored token onto the wire: GET operations put it in the `token` query
parameter, PUT/DELETE operations in the `token` field of the JSON payload,
and authorized uploads in the `token` multipart text field. -/
theorem C3_token_threading :
    (∀ (api : AuthorizedApi) (cid : Uuid),
      (api.getContentById cid).method = .GET ∧
      (api.getContentById cid).query = [("token", api.token)]) ∧
    (∀ (api : AuthorizedApi) (code : String),
      (api.getContentByCode code).method = .GET ∧
      (api.getContentByCode code).query = [("token", api.token)]) ∧
    (∀ api : AuthorizedApi,
      api.getAccountId.method = .GET ∧
      api.getAccountId.query = [("token", api.token)]) ∧
    (∀ (api : AuthorizedApi) (aid : Uuid),
      (api.getAccountDetails aid).method = .GET ∧
      (api.getAccountDetails aid).query = [("token", api.token)]) ∧
    (∀ (api : AuthorizedApi) (pf : Uuid) (fname : String),
      (api.createFolder pf fname).method = .PUT ∧
      ∃ fields, (api.createFolder pf fname).body = .json (.obj fields) ∧
        Json.lookup fields "token" = some (.str api.token)) ∧
    (∀ (api : AuthorizedApi) (cid : Uuid) (opt : ContentOpt),
      (api.setOption cid opt).method = .PUT ∧
      ∃ fields, (api.setOption cid opt).body = .json (.obj fields) ∧
        Json.lookup fields "token" = some (.str api.token)) ∧
    (∀ (api : AuthorizedApi) (cids : List Uuid) (dest : Uuid),
      (api.copyContent cids dest).method = .PUT ∧
      ∃ fields, (api.copyContent cids dest).body = .json (.obj fields) ∧
        Json.lookup fields "token" = some (.str api.token)) ∧
    (∀ (api : AuthorizedApi) (cids : List Uuid),
      (api.deleteContent cids).method = .DELETE ∧
      ∃ fields, (api.deleteContent cids).body = .json (.obj fields) ∧
        Json.lookup fields "token" = some (.str api.token)) ∧
    (∀ (api : AuthorizedServerApi) (fname : String),
      ∃ texts, (api.uploadFileWithFilename fname).body = .multipart "file" fname texts ∧
        ("token", api.token) ∈ texts) ∧
    (∀ (api : AuthorizedServerApi) (fid : Uuid) (fname : String),
      ∃ texts,
        (api.uploadFileWithFilenameToFolder fid fname).body = .multipart "file" fname texts ∧
        ("token", api.token) ∈ texts) := by
  refine ⟨fun api cid => ⟨rfl, rfl⟩, fun api code => ⟨rfl, rfl⟩, fun api => ⟨rfl, rfl⟩,
    fun api aid => ⟨rfl, rfl⟩,
    fun api pf fname => ⟨rfl, ⟨_, rfl, by simp [Json.lookup]⟩⟩,
    fun api cid opt => ⟨rfl, ⟨_, rfl, by simp [Json.lookup]⟩⟩,
    fun api cids dest => ⟨rfl, ⟨_, rfl, by simp [Json.lookup]⟩⟩,
    fun api cids => ⟨rfl, ⟨_, rfl, by simp [Json.lookup]⟩⟩,
    fun api fname => ⟨_, rfl, by simp⟩,
    fun api fid fname => ⟨_, rfl, by simp⟩⟩

/-- C5: the (spec-modelled) upload progress counter is monotonically
non-decreasing over successive reports and never exceeds the total file
size, from any already-reported count within the total. -/
theorem C5_progress_monotone_saturating (total : Nat) (chunks : List Nat) (sent : Nat)
    (hsent : sent ≤ total) :
    List.Chain' (· ≤ ·) (sent :: progressReports total chunks sent) ∧
    ∀ x ∈ progressReports total chunks sent, x ≤ total := by
  induction chunks generalizing sent with
  | nil => simp [progressReports]
  | cons c rest ih =>
      have h1 : min (sent + c) total ≤ total := Nat.min_le_right _ _
      obtain ⟨ihchain, ihmem⟩ := ih (min (sent + c) total) h1
      refine ⟨?_, ?_⟩
      · rw [progressReports]
        exact List.chain'_cons.mpr
          ⟨le_min (Nat.le_add_right _ _) hsent, ihchain⟩
      · rw [progressReports]
        intro x hx
        rcases List.mem_cons.mp hx with rfl | hx
        · exact h1
        · exact ihmem x hx

/-- Witness for C5 at a concrete upload: total size 10, four chunks. -/
theorem C5_progress_witness :
    0 ≤ 10 ∧
    (List.Chain' (· ≤ ·) (0 :: progressReports 10 [4, 5, 7, 1] 0) ∧
     ∀ x ∈ progressReports 10 [4, 5, 7, 1] 0, x ≤ 10) :=
  ⟨Nat.zero_le 10, C5_progress_monotone_saturating 10 [4, 5, 7, 1] 0 (Nat.zero_le 10)⟩

/-- C1: `Api::parse_res` returns the typed payload only for an HTTP 200
response whose envelope status is `"ok"`; a non-`"ok"` envelope status on
the 200 path yields `ApiStatusError` carrying that status; a non-success
status yields `ApiStatusError` carrying the envelope status when the body
still parses as an envelope and `HttpStatusCodeError` otherwise; and both
constructors are distinct from the transport-level `HttpRequestError`. -/
theorem C1_parse_res (deData : Json → Except String α) (res : Response) :
    (∀ a, parseRes deData res = .ok a →
      res.status = 200 ∧
      ∃ j envelope, res.body = some j ∧
        deserializeApiResult deData j = .ok envelope ∧
        envelope.status = "ok" ∧ envelope.data = a) ∧
    (∀ j envelope, res.status = 200 → res.body = some j →
      deserializeApiResult deData j = .ok envelope → envelope.status ≠ "ok" →
      parseRes deData res = .error (.ApiStatusError res.url envelope.status)) ∧
    (res.status ≠ 200 →
      (∀ envelope,
        res.body.bind (fun j => (deserializeApiResult Except.ok j).toOption) = some envelope →
        parseRes deData res = .error (.ApiStatusError res.url envelope.status)) ∧
      (res.body.bind (fun j => (deserializeApiResult Except.ok j).toOption) = none →
        parseRes deData res = .error (.HttpStatusCodeError res.url res.status))) ∧
    (∀ u₁ s₁ u₂ c₂ u₃ m,
      Error.ApiStatusError u₁ s₁ ≠ .HttpRequestError u₃ m ∧
      Error.HttpStatusCodeError u₂ c₂ ≠ .HttpRequestError u₃ m) := by
  refine ⟨?pay, ?env, ?non, ?ctor⟩
  · intro a ha
    rw [parseRes] at ha
    split at ha
    · split at ha <;> cases ha
    · rename_i hst
      split at ha
      · cases ha
      · rename_i j hb
        split at ha
        · cases ha
        · rename_i envelope hd
          split at ha
          · cases ha
          · rename_i hok
            cases ha
            exact ⟨not_not.mp hst, j, envelope, hb, hd, not_not.mp hok, rfl⟩
  · intro j envelope hst hb hd hne
    simp [parseRes, hst, hb, hd, hne]
  · intro hst
    exact ⟨fun envelope he => by simp [parseRes, hst, he],
           fun he => by simp [parseRes, hst, he]⟩
  · intro u₁ s₁ u₂ c₂ u₃ m
    exact ⟨by simp, by simp⟩

/-- Witness for C1 at a concrete non-success response with a non-JSON
body: a 404 becomes `HttpStatusCodeError`. -/
theorem C1_parse_res_witness :
    ((404 : Nat) ≠ 200) ∧
    parseRes Except.ok ⟨404, ⟨"https://api.gofile.io/servers", none⟩, none⟩ =
      .error (.HttpStatusCodeError ⟨"https://api.gofile.io/servers", none⟩ 404) :=
  ⟨by decide,
   ((C1_parse_res Except.ok ⟨404, ⟨"https://api.gofile.io/servers", none⟩, none⟩).2.2.1
      (by decide)).2 rfl⟩

/-- C2: the content model is a tagged union discriminated by the JSON
`type` field with exactly the folder and file variants; every parsed value
carries the common fields read from the `id`, `name`,
`parentFolder` and `createTime` keys of the object; a folder carries child identifiers
plus the optional aggregate download count, aggregate size and nested
mapping; a file carries its size, an md5 checksum of exactly 16 bytes
parsed from hex, a parsed MIME type, and a direct link URL. -/
theorem C2_content_tagged_union {j : Json} {c : Content}
    (h : deserializeContent j = .ok c) :
    ∃ o, j = .obj o ∧
      (∃ ids, Json.lookup o "id" = some (.str ids) ∧ parseUuid ids = some c.id) ∧
      Json.lookup o "name" = some (.str c.name) ∧
      (∃ ps, Json.lookup o "parentFolder" = some (.str ps) ∧
        parseUuid ps = some c.parentFolder) ∧
      Json.lookup o "createTime" = some (.num c.createTime) ∧
      ((Json.lookup o "type" = some (.str "folder") ∧
        ∃ code isPublic cids tdc ts cts,
          c.kind = .Folder code isPublic cids tdc ts cts ∧
          Json.lookup o "code" = some (.str code) ∧
          (∃ cj, Json.lookup o "childrenIds" = some cj ∧ parseUuidList cj = .ok cids) ∧
          optNatField o "totalDownloadCount" = .ok tdc ∧
          optNatField o "totalSize" = .ok ts ∧
          optContentsField o = .ok cts) ∨
       (Json.lookup o "type" = some (.str "file") ∧
        ∃ size downloadCount md5 mimetype serverChoosen link,
          c.kind = .File size downloadCount md5 mimetype serverChoosen link ∧
          md5.bytes.length = 16 ∧
          (∃ m : Int, Json.lookup o "size" = some (.num m) ∧ 0 ≤ m ∧ m.toNat = size) ∧
          (∃ ds, Json.lookup o "md5" = some (.str ds) ∧ parseMd5 ds = some md5) ∧
          (∃ ms, Json.lookup o "mimetype" = some (.str ms) ∧ parseMime ms = some mimetype) ∧
          (∃ ls, Json.lookup o "link" = some (.str ls) ∧ parseUrlStr ls = some link))) := by
  obtain ⟨o, rfl, hid, hnm, hpf, hct, hkind⟩ := deserializeContent_ok_inv h
  refine ⟨o, rfl, hid, hnm, hpf, hct, ?_⟩
  rcases hkind with ⟨htag, code, isPublic, cids, tdc, ts, cts, hrest⟩ |
    ⟨htag, size, dc, md5v, mim, srv, link, hk, hsz, hmd5, hmime, hlink⟩
  · exact Or.inl ⟨htag, code, isPublic, cids, tdc, ts, cts, hrest⟩
  · exact Or.inr ⟨htag, size, dc, md5v, mim, srv, link, hk, md5v.len16, hsz, hmd5,
      hmime, hlink⟩

/-- Witness for C2 at the file test vector of the crate: the document
deserializes, and the claim theorem applied to it shows the tag is one of
the two variants. -/
theorem C2_content_tagged_union_witness :
    deserializeContent fileDoc = .ok fileContent ∧
    (∃ o, fileDoc = Json.obj o ∧
      (Json.lookup o "type" = some (.str "folder") ∨
       Json.lookup o "type" = some (.str "file"))) := by
  have hmd5 : parseMd5 "000000000000000000000000000001ff" = some md5Sample :=
    parseMd5_hexEncode md5Sample
  have hmime : parseMime "text/plain" = some mimeSample := parseMime_repr mimeSample
  have hurl : parseUrlStr "http://example.com/path/file.txt" = some urlSample :=
    parseUrlStr_repr urlSample
  have hEval : deserializeContent fileDoc = .ok fileContent := by
    simp +decide [fileDoc, fileContent, deserializeContent, Json.lookup, getField,
      parseUuidJson, asStr, asIntNum, asNatNum, parseMd5Json, parseMimeJson,
      parseUrlJson, parseUuid_repr, hmd5, hmime, hurl, bind, Except.bind, pure,
      Except.pure]
  refine ⟨hEval, ?_⟩
  obtain ⟨o, ho, -, -, -, -, hkind⟩ := C2_content_tagged_union hEval
  exact ⟨o, ho, hkind.elim (fun hk => Or.inl hk.1) (fun hk => Or.inr hk.1)⟩

theorem deserializeContentEntries_nil :
    deserializeContentEntries [] = (.ok [] : Except String (List (Uuid × Content))) := by
  rw [deserializeContentEntries]

theorem nestedAggChildDoc_eval : deserializeContent nestedAggChildDoc = .ok nestedAggChild := by
  simp [nestedAggChildDoc, nestedAggChild, deserializeContent, deserializeContentEntries,
    Json.lookup, getField, parseUuidJson, asStr, asIntNum, asBool, parseUuid_repr,
    parseUuidList, optNatField, asNatNum, optContentsField, Except.map, bind,
    Except.bind, pure, Except.pure, List.mapM.loop]

theorem nestedAggEntries_eval (v : Json) (hv : deserializeContent v = .ok nestedAggChild) :
    deserializeContentEntries [(uuidC.repr, v)] = .ok [(uuidC, nestedAggChild)] := by
  rw [deserializeContentEntries]
  simp [parseUuid_repr, hv, deserializeContentEntries_nil, bind, Except.bind, pure,
    Except.pure]

theorem nestedAggRoot_eval (v : Json) (hv : deserializeContent v = .ok nestedAggChild) :
    deserializeContent (Json.obj [("id", .str uuidA.repr), ("name", .str "root"),
      ("parentFolder", .str uuidB.repr), ("createTime", .num 4),
      ("type", .str "folder"), ("code", .str "r"),
      ("childrenIds", .arr [.str uuidC.repr]),
      ("contents", .obj [(uuidC.repr, v)])]) = .ok nestedAggRoot := by
  have hE := nestedAggEntries_eval v hv
  simp [nestedAggRoot, deserializeContent, Json.lookup, getField, parseUuidJson, asStr,
    asIntNum, asBool, parseUuid_repr, parseUuidList, optNatField, asNatNum,
    optContentsField, hE, Except.map, bind, Except.bind, pure, Except.pure,
    List.mapM.loop]

/-- C4 counterexample: the deserializer accepts a fetch response whose
nested child folder carries the aggregate download count, the aggregate
size and a nested mapping of its own, so these fields are not `None` on
every folder below the root. -/
theorem C4_counterexample :
    deserializeContent nestedAggDoc = .ok nestedAggRoot ∧
    nestedAggRoot.contents = some [(uuidC, nestedAggChild)] ∧
    nestedAggChild.totalSize = some 7 ∧
    nestedAggChild.totalDownloadCount = some 3 ∧
    nestedAggChild.contents = some [] := by
  exact ⟨nestedAggRoot_eval nestedAggChildDoc nestedAggChildDoc_eval, rfl, rfl, rfl, rfl⟩

/-- C4 (amended): the folder-only aggregate fields and the nested mapping
are optional fields that mirror the JSON rather than being forced absent
below the root: for every deserialized folder object — children pass
through the same deserializer, so this holds at every depth — each of the
three fields is `none` exactly when its key is missing or `null`. -/
theorem C4_aggregates_mirror_json {o : List (String × Json)} {c : Content}
    {code : String} {isPublic : Bool} {cids : List Uuid} {tdc ts : Option Nat}
    {cts : Option (List (Uuid × Content))}
    (h : deserializeContent (.obj o) = .ok c)
    (hk : c.kind = .Folder code isPublic cids tdc ts cts) :
    (tdc = none ↔ (Json.lookup o "totalDownloadCount" = none ∨
      Json.lookup o "totalDownloadCount" = some .null)) ∧
    (ts = none ↔ (Json.lookup o "totalSize" = none ∨
      Json.lookup o "totalSize" = some .null)) ∧
    (cts = none ↔ (Json.lookup o "contents" = none ∨
      Json.lookup o "contents" = some .null)) := by
  obtain ⟨o', heq, -, -, -, -, hkind⟩ := deserializeContent_ok_inv h
  injection heq with heq
  subst heq
  rcases hkind with ⟨-, code', isPub', cids', tdc', ts', cts', hk', -, -, htdc, hts, hcts⟩ |
    ⟨-, size, dc, md5v, mim, srv, link, hk', -, -, -, -⟩
  · rw [hk] at hk'
    injection hk' with h1 h2 h3 h4 h5 h6
    subst h4
    subst h5
    subst h6
    exact ⟨optNatField_ok_none htdc, optNatField_ok_none hts, optContentsField_ok_none hcts⟩
  · rw [hk] at hk'
    cases hk'

/-- Witness for C4 (amended) at a concrete root-level folder without the
aggregate keys: each optional field is `none` and the claim theorem links
that to the absence of the keys. -/
theorem C4_aggregates_mirror_json_witness :
    deserializeContent (Json.obj extraFieldFields) = .ok extraFieldContent ∧
    (((none : Option Nat) = none ↔ (Json.lookup extraFieldFields "totalDownloadCount" = none ∨
        Json.lookup extraFieldFields "totalDownloadCount" = some .null)) ∧
     ((none : Option Nat) = none ↔ (Json.lookup extraFieldFields "totalSize" = none ∨
        Json.lookup extraFieldFields "totalSize" = some .null)) ∧
     ((none : Option (List (Uuid × Content))) = none ↔
       (Json.lookup extraFieldFields "contents" = none ∨
        Json.lookup extraFieldFields "contents" = some .null))) := by
  have hEval : deserializeContent (Json.obj extraFieldFields) = .ok extraFieldContent := by
    simp +decide [extraFieldFields, extraFieldContent, deserializeContent, Json.lookup,
      getField, parseUuidJson, asStr, asIntNum, asBool, parseUuid_repr, parseUuidList,
      optNatField, optContentsField, bind, Except.bind, pure, Except.pure, List.mapM.loop]
  exact ⟨hEval, C4_aggregates_mirror_json hEval rfl⟩

/-- C6 counterexample: the parenthesized document-level direction fails —
`extraFieldDoc` deserializes successfully, yet re-serializing the value
does not reproduce the document, because deserialization drops the unknown
field and materializes the defaulted `public` and the absent optional
fields. -/
theorem C6_document_roundtrip_fails :
    ∃ c, deserializeContent extraFieldDoc = .ok c ∧ serializeContent c ≠ extraFieldDoc := by
  refine ⟨extraFieldContent, ?_, ?_⟩
  · simp +decide [extraFieldDoc, extraFieldFields, extraFieldContent, deserializeContent,
      Json.lookup, getField, parseUuidJson, asStr, asIntNum, asBool, parseUuid_repr,
      parseUuidList, optNatField, optContentsField, bind, Except.bind, pure, Except.pure,
      List.mapM.loop]
  · simp [extraFieldDoc, extraFieldFields, extraFieldContent, serializeContent,
      serializeContentKind, serializeContentsOpt, serOptNat]

/-- C6 (amended): the value-level round-trip holds — serializing any
envelope value (with a content payload) or any content value and
deserializing the result yields the original value; the document-level
direction is not its equivalent and fails (see the counterexample). -/
theorem C6_value_roundtrip :
    (∀ r : ApiResult Content,
      deserializeApiResult deserializeContent (serializeApiResult serializeContent r) =
        .ok r) ∧
    (∀ c : Content, deserializeContent (serializeContent c) = .ok c) := by
  have hc : ∀ c : Content, deserializeContent (serializeContent c) = .ok c :=
    fun c => (roundtripAux (sizeOf c)).1 c le_rfl
  refine ⟨?_, hc⟩
  rintro ⟨status, data⟩
  simp [serializeApiResult, deserializeApiResult, Json.lookup, getField, asStr,
    hc, bind, Except.bind, pure, Except.pure]

end Gofile
